import Mathlib

/-!
Verification of the autodiff computation-graph core (value.h, value.tpp,
util.h) against its natural-language specification.

Embedding conventions:
* `float` is modelled as `ℚ`; the claims under scrutiny concern which
  algebraic expression each backward rule assigns, not rounding.
* The shape facade (libcpp-common `Vec`/`Mat`, external to this repository)
  is modelled per the specification: `Vec<N>` is `Fin N → ℚ`, `Mat<R,C>` is
  `Fin R → Fin C → ℚ`, with element-wise arithmetic, matrix-vector product,
  transpose and reducing sum given their standard dense meanings.
* A `_ValueData` node is a record of value, gradient, `has_grad` and
  `requires_grad`; the per-op backward closures are embedded as pure
  functions from the node/child fields they read to the child gradients
  they write.
-/

/-- Error kinds of the engine (spec section 7). The source throws a single
`ad::ADException` carrying a message; the spec classifies the throw sites
into these kinds. -/
inductive ADError where
  | MissingGradient
  | UnsupportedDerivative
  | ShapeMismatch
  deriving DecidableEq

/-- State of one `_ValueData<T>` node (value.h:59-68): forward value,
gradient of the same shape, the `has_grad` flag and the `requires_grad`
flag. The op tag, printer and child list are omitted: the claims below
never read them. -/
structure NodeState (T : Type) where
  value : T
  grad : T
  hasGrad : Bool
  requiresGrad : Bool
  deriving DecidableEq

/-- Constructor `_ValueData::_ValueData` (value.h:70-82), as reached from
the public `_ValueWrapper` constructor (value.h:132-139): `m_grad` is
initialised to `1.0f` (the all-ones element of the shape, via the facade's
broadcasting constructor), `m_has_grad` to `false` and `m_requires_grad`
to `true` - unconditionally, for leaves and operation nodes alike. -/
def mkValueData {T : Type} [One T] (v : T) : NodeState T :=
  { value := v, grad := 1, hasGrad := false, requiresGrad := true }

/-- Factory `_ValueWrapper::TempValue` (value.h:141-145): an ordinary
leaf whose `m_requires_grad` is then reset to `false`. -/
def TempValue {T : Type} [One T] (x : T) : NodeState T :=
  { mkValueData x with requiresGrad := false }

/-- Driver `_ValueData::backward` (value.h:84-87): set `m_has_grad` and
invoke the node's stored `m_backward_f` on the node. Every backward
closure in the source writes only child nodes, so its effect is returned
separately (type `P`) and the node's own fields other than `m_has_grad`
are untouched. -/
def valueDataBackward {T P : Type} (backwardF : NodeState T → P) (s : NodeState T) :
    NodeState T × P :=
  let s2 := { s with hasGrad := true }
  (s2, backwardF s2)

/-- Accessor `_ValueData::grad` (value.h:89-95): throws when `m_has_grad`
is unset, otherwise returns the stored gradient. -/
def nodeGrad {T : Type} (s : NodeState T) : Except ADError T :=
  if s.hasGrad then Except.ok s.grad else Except.error ADError.MissingGradient

/-- Method `_ValueData::update` (value.h:96): `m_value -= grad() * lr`.
The argument `grad() * lr` is evaluated first; if `grad()` throws, the
exception propagates before `m_value` is assigned. `grad * lr` is the
facade's element-wise scaling, modelled as `lr • grad`. -/
def nodeUpdate {T : Type} [Sub T] [SMul ℚ T] (s : NodeState T) (lr : ℚ) :
    Except ADError (NodeState T) :=
  (nodeGrad s).map fun g => { s with value := s.value - lr • g }

/-- Observable state of a node after an `update(lr)` call on it: the new
state on success, the unchanged object when the call threw (C++ exception
propagation leaves the object as it was at the throw point). -/
def nodeUpdateRun {T : Type} [Sub T] [SMul ℚ T] (s : NodeState T) (lr : ℚ) :
    NodeState T :=
  match nodeUpdate s lr with
  | Except.ok s2 => s2
  | Except.error _ => s

/-- Claim C4: invoking `backward()` on a freshly constructed node (grad
still the all-ones element written by the constructor, `has_grad` false)
sets `has_grad` to `true`, runs the node's `backward_fn` on that node, and
leaves the root's gradient equal to the all-ones tensor of its value's
shape - stated for the scalar, vector and matrix shape families. -/
theorem backward_fresh_root_seeds_ones {P : Type} (n r c : ℕ)
    (f : NodeState ℚ → P) (g : NodeState (Fin n → ℚ) → P)
    (h : NodeState (Fin r → Fin c → ℚ) → P)
    (x : ℚ) (v : Fin n → ℚ) (m : Fin r → Fin c → ℚ) :
    valueDataBackward f (mkValueData x) =
      ({ value := x, grad := 1, hasGrad := true, requiresGrad := true },
       f { value := x, grad := 1, hasGrad := true, requiresGrad := true }) ∧
    valueDataBackward g (mkValueData v) =
      ({ value := v, grad := fun _ => 1, hasGrad := true, requiresGrad := true },
       g { value := v, grad := fun _ => 1, hasGrad := true, requiresGrad := true }) ∧
    valueDataBackward h (mkValueData m) =
      ({ value := m, grad := fun _ _ => 1, hasGrad := true, requiresGrad := true },
       h { value := m, grad := fun _ _ => 1, hasGrad := true, requiresGrad := true }) := by
  refine ⟨rfl, ?_, ?_⟩ <;> rfl

/-- Claim C5: `grad()` and `update(lr)` fail with `MissingGradient`
exactly when `has_grad` is false; once a backward pass has set `has_grad`,
`grad()` returns the stored gradient and `update(lr)` succeeds with
`value ← value − grad · lr` element-wise. -/
theorem grad_update_missing_gradient {T : Type} [Sub T] [SMul ℚ T]
    (s : NodeState T) (lr : ℚ) :
    nodeGrad s =
      (if s.hasGrad then Except.ok s.grad else Except.error ADError.MissingGradient) ∧
    nodeUpdate s lr =
      (if s.hasGrad then Except.ok { s with value := s.value - lr • s.grad }
       else Except.error ADError.MissingGradient) := by
  refine ⟨rfl, ?_⟩
  cases hh : s.hasGrad <;> simp [nodeUpdate, nodeGrad, hh, Except.map]

/-- Claim C10: a failed `update(lr)` (no backward pass has reached the
node, `has_grad = false`) raises `MissingGradient` before any mutation:
the node's observable state is unchanged. -/
theorem update_failure_atomic {T : Type} [Sub T] [SMul ℚ T]
    (s : NodeState T) (lr : ℚ) (h : s.hasGrad = false) :
    nodeUpdate s lr = Except.error ADError.MissingGradient ∧
    nodeUpdateRun s lr = s := by
  have hg : nodeGrad s = Except.error ADError.MissingGradient := by
    simp [nodeGrad, h]
  constructor
  · simp [nodeUpdate, hg, Except.map]
  · simp [nodeUpdateRun, nodeUpdate, hg, Except.map]

/-- Claim C10 witness: a concrete fresh scalar node with value 5 keeps
value 5 after a failed `update(2)`. -/
theorem update_failure_atomic_witness :
    nodeUpdate (NodeState.mk (5 : ℚ) 1 false true) 2 =
      Except.error ADError.MissingGradient ∧
    nodeUpdateRun (NodeState.mk (5 : ℚ) 1 false true) 2 =
      NodeState.mk (5 : ℚ) 1 false true :=
  update_failure_atomic (NodeState.mk (5 : ℚ) 1 false true) 2 rfl

/-!
Per-operation backward closures, embedded from the source.
-/

/-- Helper `detail::sum` for scalars (util.h:30-33): identity. -/
def detailSumScalar (v : ℚ) : ℚ := v

/-- Helper `detail::sum` for vectors (util.h:34-37): the facade's reducing
sum. -/
def detailSumVec {n : ℕ} (v : Fin n → ℚ) : ℚ := ∑ i, v i

/-- Helper `detail::sum_if_scalar<T>` (util.h:39-46) instantiated at a
scalar target `T`: reduce by `detail::sum`, which on a scalar argument is
the identity. -/
def sum_if_scalar (v : ℚ) : ℚ := detailSumScalar v

/-- Gradient assigned to the right operand of `operator/` (value.h:246-250),
scalar/scalar instantiation:
`sum_if_scalar<decltype(rhs.m_value)>(v.m_grad * lhs.m_value / (rhs.m_value * rhs.m_value))`.
No negative sign appears in the source expression. -/
def divBackwardRhsGrad (vGrad lhsVal rhsVal : ℚ) : ℚ :=
  sum_if_scalar (vGrad * lhsVal / (rhsVal * rhsVal))

/-- Claim C1: the spec's rule for the right operand of division is
`sum_if_scalar(−gᵥ · A / B²)`, but the closure in value.h:246-250 computes
`+gᵥ · A / B²`: at `gᵥ = 1, A = 1, B = 2` it assigns `1/4`, not `−1/4`.
This theorem evaluates the embedded source expression at that input. -/
theorem div_rhs_grad_sign_bug :
    divBackwardRhsGrad 1 1 2 = 1 / 4 ∧
    divBackwardRhsGrad 1 1 2 ≠ -(1 * 1 / (2 * 2) : ℚ) := by
  constructor <;> norm_num [divBackwardRhsGrad, sum_if_scalar, detailSumScalar]

/-- Helper `detail::relu_helper` (util.h:67-79), vector instantiation:
position-wise, keep `v[i]` where `cond[i] > 0`, else `0`. -/
def relu_helper {n : ℕ} (cond v : Fin n → ℚ) : Fin n → ℚ :=
  fun i => if cond i > 0 then v i else 0

/-- Forward value of `relu` (value.tpp:94): `relu_helper(A, A)`. -/
def reluForward {n : ℕ} (a : Fin n → ℚ) : Fin n → ℚ := relu_helper a a

/-- Backward closure of `relu` (value.tpp:81-88): when the node requires a
gradient and the child does too, the child's gradient is assigned
`relu_helper(v.m_value, v.m_grad)` - the gate condition is the node's own
(output) value. `none` means the child's gradient is not written. -/
def reluBackward {n : ℕ} (vReq childReq : Bool) (vValue vGrad : Fin n → ℚ) :
    Option (Fin n → ℚ) :=
  if vReq = false then none
  else if childReq then some (relu_helper vValue vGrad) else none

/-- Claim C9: `relu` computes element-wise `max(A, 0)` forward, and the
child gradient assigned by a backward pass through the node equals
`gᵥ ⊙ 1[A > 0]`, gated on the sign of the input `A`: even though the
source gates on the output value, `relu(A)[p] > 0` holds exactly when
`A[p] > 0`, so the claimed input-gated rule holds at every position. -/
theorem relu_forward_backward_gate {n : ℕ} (a g : Fin n → ℚ) :
    reluForward a = (fun i => max (a i) 0) ∧
    reluBackward true true (reluForward a) g =
      some (fun i => if a i > 0 then g i else 0) := by
  have hfwd : reluForward a = fun i => max (a i) 0 := by
    funext i
    simp only [reluForward, relu_helper]
    rcases le_or_lt (a i) 0 with hle | hlt
    · rw [if_neg (not_lt.mpr hle), max_eq_right hle]
    · rw [if_pos hlt, max_eq_left hlt.le]
  refine ⟨hfwd, ?_⟩
  show some (relu_helper (reluForward a) g) = _
  refine congrArg some ?_
  rw [hfwd]
  funext i
  simp only [relu_helper]
  have hc : (max (a i) 0 > 0) ↔ a i > 0 := by
    rw [gt_iff_lt, lt_max_iff]
    exact or_iff_left (lt_irrefl 0)
  exact if_congr hc rfl rfl

/-- Effect of the `pow` backward closure on the two children: the gradient
written to the base child (`none` = not written; the source has no code
path that writes the exponent child's gradient at all), and the error
raised, if any. -/
structure PowBwdEffect (n : ℕ) where
  baseGrad : Option (Fin n → ℚ)
  raised : Option ADError

/-- Backward closure of `pow(base, exponent)` (value.tpp:11-33), base of
vector shape and scalar exponent, parametrised by the facade's scalar
power function `powFn` (wrapped element-wise by `detail::pow`,
util.h:48-56). If the node does not require a gradient the guard
`AD_ENSURE_REQUIRES_GRAD` returns without touching anything; otherwise the
base child (when it requires a gradient) is assigned
`ewise_mult(v.m_grad * exponent.m_value, pow(base.m_value, exponent.m_value - 1))`,
and then, when the exponent child requires a gradient, the closure throws
(spec kind `UnsupportedDerivative`). -/
def powBackward {n : ℕ} (powFn : ℚ → ℚ → ℚ) (vReq : Bool)
    (vGrad baseVal : Fin n → ℚ) (expVal : ℚ) (baseReq expReq : Bool) :
    PowBwdEffect n :=
  if vReq = false then { baseGrad := none, raised := none }
  else
    { baseGrad :=
        if baseReq then
          some (fun i => vGrad i * expVal * powFn (baseVal i) (expVal - 1))
        else none
      raised :=
        if expReq then some ADError.UnsupportedDerivative else none }

/-- Claim C6: whenever a backward pass reaches a `pow(A, e)` node (such a
node requires a gradient: the constructor sets the flag on every operation
node) whose exponent child requires a gradient, the closure raises
`UnsupportedDerivative`, and no exponent gradient is ever produced (the
effect record has no such component by construction); when the exponent
does not require a gradient, no error is raised and the base child's
gradient is assigned `gᵥ ⊙ e ⊙ A^(e−1)` element-wise. -/
theorem pow_backward_exponent_unsupported {n : ℕ} (powFn : ℚ → ℚ → ℚ)
    (g a : Fin n → ℚ) (e : ℚ) (baseReq : Bool) :
    (powBackward powFn true g a e baseReq true).raised =
      some ADError.UnsupportedDerivative ∧
    (powBackward powFn true g a e baseReq false).raised = none ∧
    (powBackward powFn true g a e true false).baseGrad =
      some (fun i => g i * e * powFn (a i) (e - 1)) := by
  refine ⟨?_, rfl, rfl⟩
  cases baseReq <;> rfl

/-- Forward value of `expand<N>(v : Vector<S>)` (value.tpp:259-264): the
loops write `result[i*S + j] = v[j]` for every `i < N`, `j < S`; since
every index `k < S*N` decomposes uniquely as `k = (k/S)*S + k%S`, the
result at `k` is `v[k % S]`. -/
def expandForward (N : ℕ) {S : ℕ} (v : Fin S → ℚ) : Fin (S * N) → ℚ :=
  fun k =>
    v ⟨k.val % S,
       Nat.mod_lt _
         (Nat.pos_of_ne_zero fun h0 =>
           Nat.not_lt_zero (k : ℕ)
             (lt_of_lt_of_le k.isLt
               (le_of_eq (by rw [h0, Nat.zero_mul]))))⟩

/-- Backward closure of `expand<N>(v : Vector<S>)` (value.tpp:240-251):
the child gradient starts at zero and, for each `i < S`, the inner loop
`for (j = i; j < S*N; j += N)` accumulates `v.m_grad[j]` into
`child.m_grad[i]` - a gather with stride `N`. The loop visits exactly the
indices `i + k*N < S*N`; every such index has `k < S`, so summing `k` over
`range S` and guarding by the bound reproduces the loop. -/
def expandBackward (N : ℕ) {S : ℕ} (vGrad : Fin (S * N) → ℚ) : Fin S → ℚ :=
  fun i =>
    ∑ k ∈ Finset.range S,
      if h : i.val + k * N < S * N then vGrad ⟨i.val + k * N, h⟩ else 0

/-- Claim C2: forward `expand` satisfies the claimed layout
`out[i*S + j] = v[j]`, but the backward gather runs with stride `N`
instead of stride `S`, so the claimed rule (child gradient `j` equals
`Σ_{i<N} gᵥ[i*S + j]`) fails whenever `S ≠ N`. At `N = 1`, `S = 2` with
upstream gradient `[1, 2]` the claim demands child gradient `[1, 2]`
(the identity, since the forward pass is the identity for `N = 1`), but
the source computes `[3, 2]`. -/
theorem expand_backward_stride_bug :
    expandForward 1 ![(1 : ℚ), 2] = ![1, 2] ∧
    expandBackward 1 ![(1 : ℚ), 2] = ![3, 2] ∧
    expandBackward 1 ![(1 : ℚ), 2] ≠ ![1, 2] := by
  have hbwd : expandBackward 1 ![(1 : ℚ), 2] = ![3, 2] := by
    funext i
    fin_cases i <;> norm_num [expandBackward, Finset.sum_range_succ]
  refine ⟨by decide, hbwd, ?_⟩
  rw [hbwd]
  intro hco
  have h0 : (3 : ℚ) = 1 := congrFun hco ⟨0, Nat.succ_pos 1⟩
  exact absurd h0 (by norm_num)

/-!
The matrix-vector product graph `z = sum(M * v)` and its backward pass
(claim C3).
-/

/-- Facade transpose of an `R x C` matrix. -/
def matTranspose {R C : ℕ} (m : Fin R → Fin C → ℚ) : Fin C → Fin R → ℚ :=
  fun j i => m i j

/-- Facade matrix-vector product. -/
def matVecMul {R C : ℕ} (m : Fin R → Fin C → ℚ) (x : Fin C → ℚ) : Fin R → ℚ :=
  fun i => ∑ j, m i j * x j

/-- Helper `detail::compute_grad_mult<R>` (util.h:116-131) with child shape
`R = Mat<R,C>` and sibling shape `Vec<C>` (util.h:123-126): the outer
product `result(i, j) = parent_grad[i] * brother_value[j]`. -/
def compute_grad_mult_mat {R C : ℕ} (parentGrad : Fin R → ℚ)
    (brotherValue : Fin C → ℚ) : Fin R → Fin C → ℚ :=
  fun i j => parentGrad i * brotherValue j

/-- Helper `detail::compute_grad_mult<R>` (util.h:116-131) with child shape
`R = Vec<C>` and sibling shape `Mat<R,C>` (util.h:121-122):
`brother_value.transpose() * parent_grad`. -/
def compute_grad_mult_vec {R C : ℕ} (parentGrad : Fin R → ℚ)
    (brotherValue : Fin R → Fin C → ℚ) : Fin C → ℚ :=
  matVecMul (matTranspose brotherValue) parentGrad

/-- States of the four nodes of `z = sum(M * v)`: matrix leaf `M`, vector
leaf `v`, product node `y = M * v`, root `z = sum(y)`. Leaves carry their
`requires_grad` flags; each gradient is initialised to the all-ones
element by the node constructor (value.h:70-82). -/
structure MatVecSumState (R C : ℕ) where
  mVal : Fin R → Fin C → ℚ
  mGrad : Fin R → Fin C → ℚ
  mHasGrad : Bool
  mReqGrad : Bool
  vVal : Fin C → ℚ
  vGrad : Fin C → ℚ
  vHasGrad : Bool
  vReqGrad : Bool
  yVal : Fin R → ℚ
  yGrad : Fin R → ℚ
  yHasGrad : Bool
  zVal : ℚ
  zGrad : ℚ
  zHasGrad : Bool

/-- Graph construction for `z = sum(M * v)` from user leaves `M` and `v`
(which the wrapper constructor marks `requires_grad = true`,
value.h:70-82): forward values are the facade product and reducing sum;
every gradient starts as the constructor's broadcast `1.0f`. -/
def mkMatVecSumGraph {R C : ℕ} (m : Fin R → Fin C → ℚ) (v : Fin C → ℚ) :
    MatVecSumState R C :=
  { mVal := m, mGrad := fun _ _ => 1, mHasGrad := false, mReqGrad := true
    vVal := v, vGrad := fun _ => 1, vHasGrad := false, vReqGrad := true
    yVal := matVecMul m v, yGrad := fun _ => 1, yHasGrad := false
    zVal := ∑ i, matVecMul m v i, zGrad := 1, zHasGrad := false }

/-- Backward pass `z.backward()` on the graph `z = sum(M * v)`:
`_ValueData::backward` (value.h:84-87) sets `z.m_has_grad` and runs the
`sum` closure (value.tpp:184-191), which assigns the child's gradient
`y.m_grad = z.m_grad` (scalar broadcast into the vector shape) and calls
`y.backward()`; that sets `y.m_has_grad` and runs the `operator*` closure
(value.h:178-189 with the rules of value.h:244-245), which assigns
`M.m_grad = compute_grad_mult<Mat<R,C>>(y.m_grad, v.m_value)` and
`v.m_grad = compute_grad_mult<Vec<C>>(y.m_grad, M.m_value)` (left operand
first), guarding each on the child's `requires_grad` and invoking each
leaf's backward (a no-op body that sets `has_grad`). The node `y` always
requires a gradient: the constructor set its flag. -/
def matVecSumBackward {R C : ℕ} (s : MatVecSumState R C) : MatVecSumState R C :=
  let s1 := { s with zHasGrad := true }
  let s2 := { s1 with yGrad := fun _ => s1.zGrad, yHasGrad := true }
  let s3 :=
    if s2.mReqGrad then
      { s2 with mGrad := compute_grad_mult_mat s2.yGrad s2.vVal, mHasGrad := true }
    else s2
  if s3.vReqGrad then
    { s3 with vGrad := compute_grad_mult_vec s3.yGrad s3.mVal, vHasGrad := true }
  else s3

/-- Claim C3: for matrix leaf `M : Mat<R,C>` and vector leaf `v : Vec<C>`
(user leaves require gradients), after `sum(M * v).backward()` the matrix
gradient has shape `R x C` (by typing) with `M.grad[i,j] = v.value[j]`,
and the vector gradient has shape `C` with `v.grad[j] = Σᵢ M.value[i,j]`. -/
theorem matvec_sum_backward_grads {R C : ℕ} (m : Fin R → Fin C → ℚ)
    (v : Fin C → ℚ) :
    (matVecSumBackward (mkMatVecSumGraph m v)).mGrad = (fun _ j => v j) ∧
    (matVecSumBackward (mkMatVecSumGraph m v)).vGrad = (fun j => ∑ i, m i j) := by
  constructor
  · funext i j
    simp [matVecSumBackward, mkMatVecSumGraph, compute_grad_mult_mat]
  · funext j
    simp [matVecSumBackward, mkMatVecSumGraph, compute_grad_mult_vec,
      matVecMul, matTranspose]

/-!
The binary-op overload surface (claims C7 and C8). `AD_BINARY_OP`
(value.h:174-235) is one macro parametrised by the infix symbol and the
two gradient expressions; it is embedded as a record of the forward
function and the two gradient functions (each reads the parent gradient
and both operand values, exactly the data the macro's closures capture).
-/

/-- One binary operation as expanded by `AD_BINARY_OP(op, lhs_grad,
rhs_grad)`: the forward function and the two child-gradient expressions. -/
structure BinOpRule (A B G : Type) where
  fwd : A → B → G
  lhsGrad : G → A → B → A
  rhsGrad : G → A → B → B

/-- Leaf backward: the parent assigns `m_grad` and calls the child's
`backward()`, whose stored closure for a leaf is the no-op default
(value.h:133), so only `m_has_grad` flips. -/
def leafReceiveGrad {T : Type} (s : NodeState T) (g : T) : NodeState T :=
  { s with grad := g, hasGrad := true }

/-- Forward value of the handle/handle form of a binary op
(value.h:198): `lhs.value() op rhs.value()`. -/
def binOpForward {A B G : Type} (rule : BinOpRule A B G)
    (l : NodeState A) (r : NodeState B) : G :=
  rule.fwd l.value r.value

/-- Effect of the op node's backward closure (value.h:178-189) on its two
operand nodes, given the node's upstream gradient `g`: each child that
requires a gradient receives its gradient expression and is recursed
into; the other child is untouched. -/
def binOpBackward {A B G : Type} (rule : BinOpRule A B G)
    (l : NodeState A) (r : NodeState B) (g : G) : NodeState A × NodeState B :=
  (if l.requiresGrad then leafReceiveGrad l (rule.lhsGrad g l.value r.value) else l,
   if r.requiresGrad then leafReceiveGrad r (rule.rhsGrad g l.value r.value) else r)

/-- Raw right operand overload (value.h:220-227):
`operator op(lhs, B rhs)` is defined as
`operator op(lhs, TempValue(rhs))` - forward value of that call. -/
def binOpForwardRawR {A B G : Type} [One B] (rule : BinOpRule A B G)
    (l : NodeState A) (x : B) : G :=
  binOpForward rule l (TempValue x)

/-- Raw right operand overload (value.h:220-227): backward effect of the
node built by `operator op(lhs, TempValue(rhs))`. -/
def binOpBackwardRawR {A B G : Type} [One B] (rule : BinOpRule A B G)
    (l : NodeState A) (x : B) (g : G) : NodeState A × NodeState B :=
  binOpBackward rule l (TempValue x) g

/-- Raw left operand overload (value.h:228-235): forward value of
`operator op(T lhs, rhs) = operator op(TempValue(lhs), rhs)`. -/
def binOpForwardRawL {A B G : Type} [One A] (rule : BinOpRule A B G)
    (x : A) (r : NodeState B) : G :=
  binOpForward rule (TempValue x) r

/-- Raw left operand overload (value.h:228-235): backward effect. -/
def binOpBackwardRawL {A B G : Type} [One A] (rule : BinOpRule A B G)
    (x : A) (r : NodeState B) (g : G) : NodeState A × NodeState B :=
  binOpBackward rule (TempValue x) r g

/-- Claim C7: for every binary operation (any forward/gradient rule
triple) and every operand pair, supplying a bare value behaves exactly as
lifting it to a `TempValue` leaf (`requires_grad = false`) and invoking
the handle/handle form: the forward value and the gradient written into
the handle operand by a backward pass agree between the two forms, on
either side; moreover the lifted temporary itself never receives a
gradient. -/
theorem raw_operand_lifting_equiv {A B G : Type} [One A] [One B]
    (rule : BinOpRule A B G) (l : NodeState A) (r : NodeState B)
    (x : A) (y : B) (g : G) :
    binOpForwardRawR rule l y = binOpForward rule l (TempValue y) ∧
    binOpBackwardRawR rule l y g = binOpBackward rule l (TempValue y) g ∧
    (binOpBackwardRawR rule l y g).2 = TempValue y ∧
    binOpForwardRawL rule x r = binOpForward rule (TempValue x) r ∧
    binOpBackwardRawL rule x r g = binOpBackward rule (TempValue x) r g ∧
    (binOpBackwardRawL rule x r g).1 = TempValue x := by
  refine ⟨rfl, rfl, ?_, rfl, rfl, ?_⟩ <;>
    simp [binOpBackwardRawR, binOpBackwardRawL, binOpBackward, TempValue,
      mkValueData]

/-- Result-node metadata of `AD_BINARY_OP` (value.h:198-200): the op node
is built by the ordinary wrapper constructor, which sets
`m_requires_grad = true` (value.h:70-82) - the children's flags are never
consulted. Children are recorded to mirror the wiring. -/
def binOpNode {A B G : Type} [One G] (rule : BinOpRule A B G)
    (l : NodeState A) (r : NodeState B) : NodeState G :=
  mkValueData (rule.fwd l.value r.value)

/-- Example rule: scalar/scalar `operator+` (value.h:238-239), whose two
gradient expressions are `sum_if_scalar(v.m_grad)` - the identity on a
scalar target. -/
def addRuleScalar : BinOpRule ℚ ℚ ℚ :=
  { fwd := fun a b => a + b
    lhsGrad := fun g _ _ => sum_if_scalar g
    rhsGrad := fun g _ _ => sum_if_scalar g }

/-- Claim C8 counterexample: an addition node both of whose children are
temporaries (`requires_grad = false`) still has `requires_grad = true` -
the claim demands `false` for an operation node all of whose children
have `requires_grad` false. -/
theorem op_node_requires_grad_counterexample :
    (TempValue (2 : ℚ)).requiresGrad = false ∧
    (TempValue (3 : ℚ)).requiresGrad = false ∧
    (binOpNode addRuleScalar (TempValue 2) (TempValue 3)).requiresGrad = true := by
  refine ⟨rfl, rfl, rfl⟩

/-- Claim C8 as amended: `requires_grad` is false exactly for temporaries
materialised by `TempValue`; user-created leaves and every operation node
have `requires_grad = true`, regardless of the children's flags - the
constructor sets the flag unconditionally and no code path ever
propagates children's flags into a parent. -/
theorem requires_grad_flag_amended {A B G : Type} [One A] [One G]
    (rule : BinOpRule A B G) (l : NodeState A) (r : NodeState B) (x : A) :
    (binOpNode rule l r).requiresGrad = true ∧
    (mkValueData x).requiresGrad = true ∧
    (TempValue x).requiresGrad = false := by
  refine ⟨rfl, rfl, rfl⟩
